import Mathlib

/-
Verification of the turn-resolution core of the rogue-artificer repository:
turn scheduler (turn_tracker.py), action resolution (actions.py), mortality
(components/fighter.py), inventory (components/inventory.py), AI behavior
(components/ai.py), actor model (entity.py) and the activation loop
(engine.py).  Definitions are shallow embeddings of the Python source;
pieces of the repository that are referenced by the source but absent from
it (game_map.py, the armor slots of the inventory) are modelled from the
specification and marked as such in their doc comments.
-/

namespace RogueArtificer

/-! ## Turn scheduler (turn_tracker.py) -/

/-- Heap element of TurnTracker.actor_heap: the tuple (tick, entry_counter, actor).
Python compares these tuples lexicographically; because entry counters are
unique, the actor component is never reached by a comparison. -/
structure Entry (α : Type) where
  tick : Nat
  counter : Nat
  actor : α
deriving Repr, DecidableEq

/-- Strict lexicographic order on the (tick, counter) prefix of a heap entry,
the order in which Python compares the heap tuples (the third component is
never compared because counters are unique). -/
def Entry.keyLt {α : Type} (e1 e2 : Entry α) : Prop :=
  e1.tick < e2.tick ∨ (e1.tick = e2.tick ∧ e1.counter < e2.counter)

instance {α : Type} (e1 e2 : Entry α) : Decidable (e1.keyLt e2) := by
  unfold Entry.keyLt
  infer_instance

/-- The minimum entry of a heap list with respect to Entry.keyLt; with unique
counters this is the unique entry heapq.heappop returns.  Ties (impossible
under the tracker invariant) resolve to the earlier list element. -/
def findMin {α : Type} : List (Entry α) → Option (Entry α)
  | [] => none
  | e :: es =>
    match findMin es with
    | none => some e
    | some m => if m.keyLt e then some m else some e

/-- Remove the first entry carrying the given (tick, counter) key; with unique
counters this removes exactly the popped minimum. -/
def removeKey {α : Type} (t c : Nat) : List (Entry α) → List (Entry α)
  | [] => []
  | e :: es => if e.tick = t ∧ e.counter = c then es else e :: removeKey t c es

/-- Drain the heap by repeatedly removing the minimum (fuel-indexed helper;
the fuel is always instantiated with the list length). -/
def popEntriesAux {α : Type} : Nat → List (Entry α) → List (Entry α)
  | 0, _ => []
  | n + 1, l =>
    match findMin l with
    | none => []
    | some m => m :: popEntriesAux n (removeKey m.tick m.counter l)

/-- The sequence of entries obtained by popping the heap until it is empty:
the pop order of the scheduler. -/
def popEntries {α : Type} (l : List (Entry α)) : List (Entry α) :=
  popEntriesAux l.length l

/-- TurnTracker from turn_tracker.py: a heap of (tick, entry_counter, actor)
tuples plus the strictly increasing insertion counter and the tick of the
last-popped entry. -/
structure TurnTracker (α : Type) where
  actor_heap : List (Entry α)
  entry_counter : Nat
  current_tick : Nat
deriving Repr

/-- TurnTracker.__init__: every actor present at build time is pushed with
tick 0 in encounter order, counters 0, 1, 2, ... -/
def TurnTracker.init {α : Type} (actors : List α) : TurnTracker α :=
  { actor_heap := (actors.enum.map fun p => ⟨0, p.1, p.2⟩)
    entry_counter := actors.length
    current_tick := 0 }

/-- TurnTracker.push: heappush (current_tick + delay, entry_counter, actor)
and increment the counter. -/
def TurnTracker.push {α : Type} (t : TurnTracker α) (actor : α) (delay : Nat) :
    TurnTracker α :=
  { t with
    actor_heap := ⟨t.current_tick + delay, t.entry_counter, actor⟩ :: t.actor_heap
    entry_counter := t.entry_counter + 1 }

/-- TurnTracker.pop: heappop the minimum entry, set current_tick to its tick,
return its actor.  Popping an empty heap raises in Python: modelled as none. -/
def TurnTracker.pop {α : Type} (t : TurnTracker α) : Option (α × TurnTracker α) :=
  match findMin t.actor_heap with
  | none => none
  | some m =>
    some (m.actor,
      { t with
        actor_heap := removeKey m.tick m.counter t.actor_heap
        current_tick := m.tick })

/-- Well-formedness maintained by the tracker: entry counters are pairwise
distinct and below the next counter to be assigned. -/
def TrackerWF {α : Type} (t : TurnTracker α) : Prop :=
  t.actor_heap.Pairwise (fun a b => a.counter ≠ b.counter)
    ∧ ∀ e ∈ t.actor_heap, e.counter < t.entry_counter

/-! ## Items (item.py) -/

/-- ArmorSlot from item.py: the five wearable slots. -/
inductive ArmorSlot
  | head
  | body
  | hands
  | feet
  | cloak
deriving Repr, DecidableEq

/-- All five armor slots, used to fold over the worn pieces. -/
def ArmorSlot.all : List ArmorSlot :=
  [ArmorSlot.head, ArmorSlot.body, ArmorSlot.hands, ArmorSlot.feet, ArmorSlot.cloak]

/-- The three Item classes of item.py collapsed into one tag: plain Item,
MeleeWeapon (with its damage), Armor (with defense and slot). -/
inductive ItemKind
  | basic
  | weapon (damage : Nat)
  | armor (defense : Nat) (slot : ArmorSlot)
deriving Repr, DecidableEq

/-- Item from item.py.  The consumable component is reduced to the facts the
claims consult (none here); display char and color are kept as data. -/
structure Item where
  name : String
  char : String
  color : Nat × Nat × Nat
  kind : ItemKind
deriving Repr, DecidableEq

/-- Item.melee_damage: the property returns 1 on the Item base class and the
configured damage on MeleeWeapon. -/
def Item.melee_damage (i : Item) : Nat :=
  match i.kind with
  | ItemKind.weapon d => d
  | _ => 1

/-- Whether the item is a MeleeWeapon (isinstance check). -/
def Item.isWeapon (i : Item) : Bool :=
  match i.kind with
  | ItemKind.weapon _ => true
  | _ => false

/-- Armor.defense when the item is armor, 0 otherwise. -/
def Item.defenseValue (i : Item) : Nat :=
  match i.kind with
  | ItemKind.armor d _ => d
  | _ => 0

/-- An item lying on the game map at a position (an Item entity with its
x, y attributes). -/
structure PlacedItem where
  x : Int
  y : Int
  item : Item
deriving Repr, DecidableEq

/-! ## Inventory (components/inventory.py) -/

/-- ALL_KEYS from inventory.py. -/
def ALL_KEYS : String := "abcdefghijklmnopqrstuvwxyz"

/-- Inventory from components/inventory.py: a capacity, an insertion-ordered
mapping from single-letter keys to non-empty stacks of same-named items
(Python dict, modelled as an association list preserving insertion order),
and the wielded key.  The per-slot armor keys are referenced by
input_handlers.py and entity.py but their declaration is missing from the
inventory.py under src/; modelled from the spec: per-slot armor_keys
referencing worn items. -/
structure Inventory where
  capacity : Nat
  items : List (String × List Item)
  wielded_key : Option String
  armor_keys : ArmorSlot → Option String

/-- Dictionary lookup items[key], none when the key is absent (Python would
raise KeyError where the source indexes unconditionally). -/
def Inventory.lookup (inv : Inventory) (key : String) : Option (List Item) :=
  (inv.items.find? fun p => p.1 == key).map Prod.snd

/-- First pass of Inventory.add: walk the stacks in insertion order and append
the item to the first stack whose head has the same name; none when no stack
matches. -/
def stackInto (items : List (String × List Item)) (item : Item) :
    Option (List (String × List Item)) :=
  match items with
  | [] => none
  | (k, stack) :: rest =>
    if stack.head?.map Item.name == some item.name then
      some ((k, stack ++ [item]) :: rest)
    else
      (stackInto rest item).map fun r => (k, stack) :: r

/-- Second pass of Inventory.add: the first letter of ALL_KEYS not currently
used as a key. -/
def firstFreeKey (items : List (String × List Item)) : Option String :=
  (ALL_KEYS.toList.find? fun c => items.all fun p => p.1 ≠ c.toString).map Char.toString

/-- Inventory.add from inventory.py: stack onto the first same-named stack,
else insert a fresh singleton stack under the first free letter, else raise
Impossible("Inventory is full").  Note: add itself never checks capacity. -/
def Inventory.add (inv : Inventory) (item : Item) : Except String Inventory :=
  match stackInto inv.items item with
  | some items2 => Except.ok { inv with items := items2 }
  | none =>
    match firstFreeKey inv.items with
    | some k => Except.ok { inv with items := inv.items ++ [(k, [item])] }
    | none => Except.error "Inventory is full"

/-- Inventory.drop from inventory.py: remove the whole stack under the key and
report the removed items plus the log message.  Faithful to the source: the
wielded or worn references to the key are NOT cleared.  A missing key raises
KeyError in Python, modelled as none. -/
def Inventory.drop (inv : Inventory) (key : String) :
    Option (Inventory × List Item × String) :=
  match inv.lookup key with
  | none => none
  | some stack =>
    let inv2 := { inv with items := inv.items.eraseP fun p => p.1 == key }
    let msg :=
      if stack.length > 1 then
        "You dropped " ++ toString stack.length ++ " "
          ++ (stack.head?.elim "" Item.name) ++ "s."
      else
        "You dropped the " ++ (stack.head?.elim "" Item.name) ++ "."
    some (inv2, stack, msg)

/-- Inventory.consume_key from inventory.py: pop one item off the stack and
delete the key when the stack empties.  Also does not clear wielded or worn
references.  Missing key raises KeyError in Python, modelled as none. -/
def Inventory.consume_key (inv : Inventory) (key : String) : Option Inventory :=
  match inv.lookup key with
  | none => none
  | some stack =>
    let stack2 := stack.dropLast
    if stack2.isEmpty then
      some { inv with items := inv.items.eraseP fun p => p.1 == key }
    else
      some { inv with items := inv.items.map fun p => if p.1 == key then (p.1, stack2) else p }

/-- Inventory.wield from inventory.py: set wielded_key unconditionally (no
check that the key exists or that the item is a weapon). -/
def Inventory.wield (inv : Inventory) (key : String) : Inventory :=
  { inv with wielded_key := some key }

/-- Inventory.wielded from inventory.py: items[wielded_key][0] when a key is
set.  A dangling wielded_key raises KeyError in Python; modelled as none, and
theorems about it carry the invariant that the key is present. -/
def Inventory.wielded (inv : Inventory) : Option Item :=
  match inv.wielded_key with
  | none => none
  | some k => (inv.lookup k).bind List.head?

/-- The item worn in a slot, when the slot key is set and present.
Modelled from the spec: the armor_keys declaration is missing from the
inventory.py under src/. -/
def Inventory.wornAt (inv : Inventory) (slot : ArmorSlot) : Option Item :=
  match inv.armor_keys slot with
  | none => none
  | some k => (inv.lookup k).bind List.head?

/-- Modelled from the spec: Inventory.defense is referenced by
entity.py (Actor.defense = fighter.base_defense + inventory.defense) but
missing from the inventory.py under src/; per the spec the derived defense
consults the worn armor in the inventory, so this sums the defense of the
item worn in each of the five slots (0 where a slot is empty). -/
def Inventory.defense (inv : Inventory) : Nat :=
  (ArmorSlot.all.map fun s => ((inv.wornAt s).map Item.defenseValue).getD 0).sum

/-! ## Fighter (components/fighter.py) and the actor model (entity.py) -/

/-- Fighter component.  The fighter.py under src/ names its two stat fields
(defense, power) while every caller in src/ (entity.py, entity_factories.py)
and the spec use base_defense and unarmed_damage for the same two
constructor slots; the fields are modelled under the latter names. -/
structure Fighter where
  max_hp : Nat
  hp : Nat
  base_defense : Nat
  unarmed_damage : Nat
deriving Repr, DecidableEq

/-- RenderOrder from render_order.py (referenced by entity.py and
fighter.py). -/
inductive RenderOrder
  | corpse
  | item
  | actor
deriving Repr, DecidableEq

/-- AI behavior state (components/ai.py): HostileEnemy holds its cached path;
ConfusedEnemy holds the previous AI and the remaining turns. -/
inductive AIState
  | hostile (path : List (Int × Int))
  | confused (previous : Option AIState) (turns_remaining : Int)
deriving Repr

/-- Actor from entity.py: entity display/blocking state plus ai, fighter and
inventory components.  isPlayer marks identity with engine.player (Python
compares object identity). -/
structure Actor where
  x : Int
  y : Int
  char : String
  color : Nat × Nat × Nat
  name : String
  blocks_movement : Bool
  render_order : RenderOrder
  ai : Option AIState
  fighter : Fighter
  inventory : Inventory
  isPlayer : Bool

/-- Actor.is_alive: true exactly when the actor still has an AI. -/
def Actor.is_alive (a : Actor) : Bool :=
  a.ai.isSome

/-- Entity.move: translate the position by the given delta. -/
def Actor.move (a : Actor) (dx dy : Int) : Actor :=
  { a with x := a.x + dx, y := a.y + dy }

/-- Actor.move_delay: constant 10 in entity.py. -/
def Actor.move_delay (_ : Actor) : Nat := 10

/-- Actor.melee_delay: constant 10 in entity.py. -/
def Actor.melee_delay (_ : Actor) : Nat := 10

/-- Actor.melee_damage from entity.py: the wielded item's melee_damage
property when anything is wielded, the fighter's unarmed damage otherwise. -/
def Actor.melee_damage (a : Actor) : Nat :=
  match a.inventory.wielded with
  | some weapon => weapon.melee_damage
  | none => a.fighter.unarmed_damage

/-- Actor.defense from entity.py: fighter.base_defense + inventory.defense. -/
def Actor.defense (a : Actor) : Nat :=
  a.fighter.base_defense + a.inventory.defense

/-- Fighter.die from fighter.py: corpse glyph and color, non-blocking,
AI cleared, renamed to a remains-of marker, corpse render order.  Returns the
death message added to the log ("You died!" for the player). -/
def Actor.die (a : Actor) : Actor × String :=
  ({ a with
      char := "%"
      color := (191, 0, 0)
      blocks_movement := false
      ai := none
      name := "remains of " ++ a.name
      render_order := RenderOrder.corpse },
   if a.isPlayer then "You died!" else a.name ++ " is dead!")

/-- The Fighter.hp setter from fighter.py: clamp the written value to
[0, max_hp], then trigger die exactly when the stored hp is 0 and the actor
still has an AI.  Returns the messages emitted (the death message, if any). -/
def Actor.set_hp (a : Actor) (value : Int) : Actor × List String :=
  let newHp : Nat := (min value (a.fighter.max_hp : Int)).toNat
  let a2 := { a with fighter := { a.fighter with hp := newHp } }
  if newHp = 0 ∧ a.ai.isSome then
    ((a2.die).1, [(a2.die).2])
  else
    (a2, [])

/-! ## Game map queries

game_map.py is not under src/ (only its callers are); the grid and its
queries are modelled from the spec, section 6: walkable/visible grids,
in_bounds, actor_at, blocking_entity_at, and the items at a position. -/

/-- Modelled from the spec: the game map.  Per-tile walkability and
visibility, the map dimensions, the actor entities and the item entities it
contains.  Actors are addressed by their index in the actors list (the arena
translation of Python object references suggested by the spec, section 9). -/
structure GameMap where
  width : Nat
  height : Nat
  walkable : Int → Int → Bool
  visible : Int → Int → Bool
  actors : List Actor
  items : List PlacedItem

/-- Modelled from the spec: in_bounds(x, y) — the point lies inside the
rectangular grid. -/
def GameMap.in_bounds (gm : GameMap) (x y : Int) : Bool :=
  0 ≤ x && x < (gm.width : Int) && 0 ≤ y && y < (gm.height : Int)

/-- Modelled from the spec: get_blocking_entity_at_location — the first
movement-blocking entity at the position.  Items never block movement
(Item.__init__ passes blocks_movement=False), so only actors are consulted. -/
def GameMap.blockingEntityAt (gm : GameMap) (x y : Int) : Option Actor :=
  gm.actors.find? fun a => a.blocks_movement && a.x == x && a.y == y

/-- Modelled from the spec: get_actor_at_location — the first living actor at
the position (dead actors are remains markers one can walk over and are not
returned), together with its index for mutation. -/
def findActorAt (l : List Actor) (x y : Int) : Option (Nat × Actor) :=
  match l with
  | [] => none
  | a :: rest =>
    if a.is_alive && a.x == x && a.y == y then
      some (0, a)
    else
      (findActorAt rest x y).map fun p => (p.1 + 1, p.2)

/-- The first item entity at the position, with its index (the iteration
order of PickupAction.perform over game_map.items). -/
def findItemAt (l : List PlacedItem) (x y : Int) : Option (Nat × Item) :=
  match l with
  | [] => none
  | p :: rest =>
    if p.x == x && p.y == y then
      some (0, p.item)
    else
      (findItemAt rest x y).map fun q => (q.1 + 1, q.2)

/-! ## Action resolution (actions.py)

Every perform function takes the map and the index of the acting actor and
returns the (possibly updated) map, the messages added to the log, and
either the delay of the action or the Impossible failure message.  The
source raises Impossible before any mutation, so on failure the returned map
is the input map unchanged. -/

/-- MovementAction.perform from actions.py: fail on out-of-bounds, on a
non-walkable tile, then on a blocking entity; otherwise move the actor and
return its move_delay.  The first two source messages each contain an
apostrophe, omitted in the strings here. -/
def movementPerform (gm : GameMap) (i : Nat) (dx dy : Int) :
    GameMap × Except String Nat :=
  match gm.actors.get? i with
  | none => (gm, Except.error "no acting actor")
  | some actor =>
    let dest_x := actor.x + dx
    let dest_y := actor.y + dy
    if ¬ gm.in_bounds dest_x dest_y then
      (gm, Except.error "Thats the edge of the world")
    else if ¬ gm.walkable dest_x dest_y then
      (gm, Except.error "Theres a wall there")
    else if (gm.blockingEntityAt dest_x dest_y).isSome then
      (gm, Except.error "Something is in the way")
    else
      ({ gm with actors := gm.actors.set i (actor.move dx dy) },
       Except.ok actor.move_delay)

/-- MeleeAction.perform from actions.py with the two random rolls injected:
r1 stands for random.randint(1, actor.melee_damage) and r2 for
random.randint(0, target.defense).  Fails when no living actor occupies the
destination; a positive roll difference is written through the hp setter
(which may trigger die), a non-positive one only logs the no-damage message;
the delay is the actor's melee_delay either way. -/
def meleePerform (gm : GameMap) (i : Nat) (dx dy : Int) (r1 r2 : Nat) :
    GameMap × List String × Except String Nat :=
  match gm.actors.get? i with
  | none => (gm, [], Except.error "no acting actor")
  | some actor =>
    match findActorAt gm.actors (actor.x + dx) (actor.y + dy) with
    | none => (gm, [], Except.error "Nothing to attack")
    | some (j, target) =>
      let damage : Int := (r1 : Int) - (r2 : Int)
      let attack_desc := actor.name.capitalize ++ " attacks " ++ target.name
      if damage > 0 then
        let hit := target.set_hp ((target.fighter.hp : Int) - damage)
        ({ gm with actors := gm.actors.set j hit.1 },
         (attack_desc ++ " for " ++ toString damage) :: hit.2,
         Except.ok actor.melee_delay)
      else
        (gm, [attack_desc ++ " but does no damage"], Except.ok actor.melee_delay)

/-- BumpAction.perform from actions.py: melee when a living actor occupies the
destination, movement otherwise; the chosen sub-action's result is forwarded
unchanged. -/
def bumpPerform (gm : GameMap) (i : Nat) (dx dy : Int) (r1 r2 : Nat) :
    GameMap × List String × Except String Nat :=
  match gm.actors.get? i with
  | none => (gm, [], Except.error "no acting actor")
  | some actor =>
    if (findActorAt gm.actors (actor.x + dx) (actor.y + dy)).isSome then
      meleePerform gm i dx dy r1 r2
    else
      let r := movementPerform gm i dx dy
      (r.1, [], r.2)

/-- PickupAction.perform from actions.py: scan the map items for one at the
acting actor's tile; if found, fail when the number of distinct inventory
keys already reaches capacity, otherwise remove the entity from the map and
run Inventory.add (whose own failure would propagate after the removal, as
in the source); fail when no item lies at the tile. -/
def pickupPerform (gm : GameMap) (i : Nat) :
    GameMap × List String × Except String Nat :=
  match gm.actors.get? i with
  | none => (gm, [], Except.error "no acting actor")
  | some actor =>
    match findItemAt gm.items actor.x actor.y with
    | none => (gm, [], Except.error "There is nothing here to pick up.")
    | some (j, item) =>
      if actor.inventory.items.length ≥ actor.inventory.capacity then
        (gm, [], Except.error "Your inventory is full.")
      else
        match actor.inventory.add item with
        | Except.error e => ({ gm with items := gm.items.eraseIdx j }, [], Except.error e)
        | Except.ok inv2 =>
          ({ gm with
              items := gm.items.eraseIdx j
              actors := gm.actors.set i { actor with inventory := inv2 } },
           ["You picked up the " ++ item.name ++ "!"],
           Except.ok 10)

/-! ## AI behavior (components/ai.py) -/

/-- The eight compass directions of ConfusedEnemy.perform, in source order. -/
def DIRECTIONS : List (Int × Int) :=
  [(-1, -1), (0, -1), (1, -1), (-1, 0), (1, 0), (-1, 1), (0, 1), (1, 1)]

/-- ConfusedEnemy.perform from ai.py, for the actor at index i whose AI
object holds (previous, turns).  The uniformly random direction choice is
injected as an index into DIRECTIONS, and the melee rolls of a possible bump
attack as r1, r2.  When turns_remaining ≤ 0 the actor's AI is restored to
previous and the delay is 0; otherwise turns_remaining is decremented (a
mutation that persists even if the bump then fails) and the chosen Bump is
performed, its result forwarded. -/
def confusedPerform (gm : GameMap) (i : Nat) (previous : Option AIState)
    (turns : Int) (dirIdx : Fin 8) (r1 r2 : Nat) :
    GameMap × List String × Except String Nat :=
  match gm.actors.get? i with
  | none => (gm, [], Except.error "no acting actor")
  | some actor =>
    if turns ≤ 0 then
      ({ gm with actors := gm.actors.set i { actor with ai := previous } },
       ["The " ++ actor.name ++ " is no longer confused."],
       Except.ok 0)
    else
      let dir := DIRECTIONS.get ⟨dirIdx.val, by cases dirIdx with | mk v h => exact h⟩
      let gm2 :=
        { gm with
          actors := gm.actors.set i
            { actor with ai := some (AIState.confused previous (turns - 1)) } }
      bumpPerform gm2 i dir.1 dir.2 r1 r2

/-- HostileEnemy.perform from ai.py, for the actor at index i with cached
path, targeting the player at index pIdx.  The pathfinding routine
get_path_to is an external collaborator (spec non-goal) and is injected as a
function.  Returns the perform result together with the new cached path (the
mutated self.path).  When the actor's tile is visible and the Chebyshev
distance to the player is at most 1: melee, path unchanged.  Else, when
visible, the path is recomputed; then if the (possibly recomputed) path is
non-empty its first step is popped before the Move toward it is resolved and
is not restored on failure; with no path the actor waits (delay 10). -/
def hostilePerform (gm : GameMap) (i : Nat) (path : List (Int × Int))
    (getPath : GameMap → Actor → Int × Int → List (Int × Int))
    (pIdx : Nat) (r1 r2 : Nat) :
    GameMap × List String × Except String Nat × List (Int × Int) :=
  match gm.actors.get? i, gm.actors.get? pIdx with
  | some actor, some target =>
    let dx := target.x - actor.x
    let dy := target.y - actor.y
    let distance := max dx.natAbs dy.natAbs
    if gm.visible actor.x actor.y ∧ distance ≤ 1 then
      let r := meleePerform gm i dx dy r1 r2
      (r.1, r.2.1, r.2.2, path)
    else
      let path2 := if gm.visible actor.x actor.y then getPath gm actor (target.x, target.y) else path
      match path2 with
      | [] =>
        (gm, [], Except.ok 10, path2)
      | dest :: rest =>
        let r := movementPerform gm i (dest.1 - actor.x) (dest.2 - actor.y)
        (r.1, [], r.2, rest)
  | _, _ => (gm, [], Except.error "no acting actor", path)

/-! ## Activation loop (engine.py) -/

/-- Outcome of one iteration of Engine.handle_enemy_turns: either the loop
returns control to the caller, or it continues with an updated map and
tracker. -/
inductive LoopStep
  | halt
  | cont (gm : GameMap) (t : TurnTracker Nat)

/-- One iteration of the while loop of Engine.handle_enemy_turns over a
tracker of actor indices.  The AI dispatch (actor.ai.perform()) is injected
as aiResult, returning the updated map and either a delay or the Impossible
failure.  A dead player halts the loop; popping the empty heap is the fatal
case (none); a popped dead actor is skipped without re-push; the popped
player halts the loop; otherwise the AI runs with fallback delay 10 on
Impossible and the actor is pushed back. -/
def handleStep (gm : GameMap) (pIdx : Nat) (t : TurnTracker Nat)
    (aiResult : Nat → GameMap → GameMap × Except String Nat) :
    Option LoopStep :=
  if ¬ ((gm.actors.get? pIdx).map Actor.is_alive = some true) then
    some LoopStep.halt
  else
    match t.pop with
    | none => none
    | some (id, t2) =>
      match gm.actors.get? id with
      | none => none
      | some actor =>
        if ¬ actor.is_alive then
          some (LoopStep.cont gm t2)
        else if id = pIdx then
          some LoopStep.halt
        else
          match actor.ai with
          | none => some (LoopStep.cont gm t2)
          | some _ =>
            let r := aiResult id gm
            let delay := match r.2 with | Except.ok d => d | Except.error _ => 10
            some (LoopStep.cont r.1 (t2.push id delay))

/-! ## Concrete fixtures used by witnesses and counterexamples -/

/-- An armor-key map with every slot empty. -/
def noArmor : ArmorSlot → Option String := fun _ => none

/-- Build an inventory with empty armor slots. -/
def invOf (cap : Nat) (items : List (String × List Item)) (wk : Option String) :
    Inventory :=
  { capacity := cap, items := items, wielded_key := wk, armor_keys := noArmor }

/-- The health potion template of entity_factories.py (plain consumable item). -/
def potion : Item :=
  { name := "Health Potion", char := "!", color := (127, 0, 255), kind := ItemKind.basic }

/-- A melee weapon with damage 4. -/
def dagger : Item :=
  { name := "Dagger", char := ")", color := (255, 255, 255), kind := ItemKind.weapon 4 }

/-- A head-slot armor piece with defense 2. -/
def helmet : Item :=
  { name := "Helmet", char := "[", color := (255, 255, 255), kind := ItemKind.armor 2 ArmorSlot.head }

/-- A full-hp fighter with the given stats. -/
def mkFighter (hp df dmg : Nat) : Fighter :=
  { max_hp := hp, hp := hp, base_defense := df, unarmed_damage := dmg }

/-- A living hostile actor at a position. -/
def mkActor (x y : Int) (nm : String) (fi : Fighter) (inv : Inventory) : Actor :=
  { x := x, y := y, char := "@", color := (255, 255, 255), name := nm,
    blocks_movement := true, render_order := RenderOrder.actor,
    ai := some (AIState.hostile []), fighter := fi, inventory := inv,
    isPlayer := false }

/-- Tracker fixture: A, B and C pushed at tick 5 in that order. -/
def tC1 : TurnTracker String :=
  (((TurnTracker.init []).push "A" 5).push "B" 5).push "C" 5

/-- Map fixture for the wall scenario: actor at (5, 5), wall at (6, 5). -/
def gmC2 : GameMap :=
  { width := 10, height := 10
    walkable := fun x y => !(x == 6 && y == 5)
    visible := fun _ _ => true
    actors := [mkActor 5 5 "Player" (mkFighter 30 0 1) (invOf 26 [] none)]
    items := [] }

/-- Map fixture for melee: an orc at (1, 1) adjacent to a troll at (2, 1). -/
def gmC4 : GameMap :=
  { width := 10, height := 10
    walkable := fun _ _ => true
    visible := fun _ _ => true
    actors := [mkActor 1 1 "Orc" (mkFighter 10 0 3) (invOf 0 [] none),
               mkActor 2 1 "Troll" (mkFighter 16 1 4) (invOf 0 [] none)]
    items := [] }

/-- Counterexample actor: wields key a, but the stack under a holds a potion,
not a weapon; unarmed damage is 3. -/
def cexActorC5 : Actor :=
  mkActor 0 0 "Player" (mkFighter 30 0 3) (invOf 26 [("a", [potion])] (some "a"))

/-- Witness actor: wields the dagger under key a. -/
def wActorC5 : Actor :=
  mkActor 0 0 "Player" (mkFighter 30 0 3) (invOf 26 [("a", [dagger])] (some "a"))

/-- Witness actor: wears the helmet under key a, wields nothing. -/
def wArmorActorC5 : Actor :=
  mkActor 0 0 "Player" (mkFighter 30 1 3)
    { capacity := 26, items := [("a", [helmet])], wielded_key := none,
      armor_keys := fun s => if s = ArmorSlot.head then some "a" else none }

/-- Counterexample map: capacity-1 inventory already holding a potion stack,
and another potion lying at the actor's tile. -/
def gmC6 : GameMap :=
  { width := 10, height := 10
    walkable := fun _ _ => true
    visible := fun _ _ => true
    actors := [mkActor 3 3 "Player" (mkFighter 30 0 1) (invOf 1 [("a", [potion])] none)]
    items := [{ x := 3, y := 3, item := potion }] }

/-- Witness map: as gmC6 but with capacity 2, so the pickup stacks. -/
def gmC6b : GameMap :=
  { width := 10, height := 10
    walkable := fun _ _ => true
    visible := fun _ _ => true
    actors := [mkActor 3 3 "Player" (mkFighter 30 0 1) (invOf 2 [("a", [potion])] none)]
    items := [{ x := 3, y := 3, item := potion }] }

/-- Inventory fixture: a single dagger under key a, wielded. -/
def invC7 : Inventory := invOf 26 [("a", [dagger])] (some "a")

/-- A confused orc (2 turns remaining, previous AI hostile) at (4, 4). -/
def actorC8 : Actor :=
  { mkActor 4 4 "Orc" (mkFighter 10 0 3) (invOf 0 [] none) with
    ai := some (AIState.confused (some (AIState.hostile [])) 2) }

/-- Map fixture for the confused AI: only the confused orc, open floor. -/
def gmC8 : GameMap :=
  { width := 10, height := 10
    walkable := fun _ _ => true
    visible := fun _ _ => true
    actors := [actorC8]
    items := [] }

/-- The same orc with 0 confused turns remaining. -/
def actorC8z : Actor :=
  { actorC8 with ai := some (AIState.confused (some (AIState.hostile [])) 0) }

/-- Map fixture for the restore activation of the confused AI. -/
def gmC8z : GameMap :=
  { gmC8 with actors := [actorC8z] }

/-- Map fixture for the activation loop: the player at index 0 and an orc at
index 1. -/
def gmC9 : GameMap :=
  { width := 10, height := 10
    walkable := fun _ _ => true
    visible := fun _ _ => true
    actors := [{ mkActor 0 0 "Player" (mkFighter 30 0 1) (invOf 26 [] none) with isPlayer := true },
               mkActor 5 5 "Orc" (mkFighter 10 0 3) (invOf 0 [] none)]
    items := [] }

/-- Tracker fixture for the loop: only the orc (index 1) is due. -/
def tC9 : TurnTracker Nat :=
  { actor_heap := [⟨20, 3, 1⟩], entry_counter := 4, current_tick := 12 }

/-- An AI oracle whose action always fails with Impossible. -/
def aiFailC9 : Nat → GameMap → GameMap × Except String Nat :=
  fun _ gm => (gm, Except.error "Nothing to attack")

/-- Map fixture for the hostile path claim: a wall at (1, 0), the moving orc
at (0, 0) on a non-visible tile, the player far away at (5, 5). -/
def gmC10 : GameMap :=
  { width := 10, height := 10
    walkable := fun x y => !(x == 1 && y == 0)
    visible := fun _ _ => false
    actors := [mkActor 0 0 "Orc" (mkFighter 10 0 3) (invOf 0 [] none),
               { mkActor 5 5 "Player" (mkFighter 30 0 1) (invOf 26 [] none) with isPlayer := true }]
    items := [] }

/-- A pathfinding oracle (never consulted when the actor tile is not
visible). -/
def getPathC10 : GameMap → Actor → Int × Int → List (Int × Int) :=
  fun _ _ _ => []

/-! ## Scheduler lemmas -/

theorem keyLt_irrefl {α : Type} (e : Entry α) : ¬ e.keyLt e := by
  unfold Entry.keyLt
  omega

theorem keyLt_asymm {α : Type} {e1 e2 : Entry α} (h1 : e1.keyLt e2)
    (h2 : e2.keyLt e1) : False := by
  unfold Entry.keyLt at h1 h2
  omega

theorem keyLt_trans {α : Type} {e1 e2 e3 : Entry α} (h1 : e1.keyLt e2)
    (h2 : e2.keyLt e3) : e1.keyLt e3 := by
  unfold Entry.keyLt at h1 h2 ⊢
  omega

theorem keyLt_total {α : Type} (e1 e2 : Entry α) :
    e1.keyLt e2 ∨ (e1.tick = e2.tick ∧ e1.counter = e2.counter) ∨ e2.keyLt e1 := by
  unfold Entry.keyLt
  omega

instance {α : Type} : IsAntisymm (Entry α) Entry.keyLt :=
  ⟨fun _ _ h1 h2 => (keyLt_asymm h1 h2).elim⟩

theorem findMin_none_iff {α : Type} {l : List (Entry α)} :
    findMin l = none ↔ l = [] := by
  cases l with
  | nil => simp [findMin]
  | cons e es =>
    simp only [findMin]
    cases findMin es with
    | none => simp
    | some m => by_cases h : m.keyLt e <;> simp [h]

theorem findMin_mem {α : Type} {l : List (Entry α)} {m : Entry α}
    (h : findMin l = some m) : m ∈ l := by
  induction l generalizing m with
  | nil => simp [findMin] at h
  | cons e es ih =>
    simp only [findMin] at h
    cases hfm : findMin es with
    | none =>
      rw [hfm] at h
      simp only [Option.some.injEq] at h
      simp [h]
    | some m2 =>
      rw [hfm] at h
      dsimp only at h
      by_cases hlt : m2.keyLt e
      · rw [if_pos hlt] at h
        simp only [Option.some.injEq] at h
        subst h
        exact List.mem_cons_of_mem _ (ih hfm)
      · rw [if_neg hlt] at h
        simp only [Option.some.injEq] at h
        simp [h]

theorem findMin_not_lt {α : Type} {l : List (Entry α)} {m : Entry α}
    (h : findMin l = some m) : ∀ x ∈ l, ¬ x.keyLt m := by
  induction l generalizing m with
  | nil => simp [findMin] at h
  | cons e es ih =>
    intro x hx
    simp only [findMin] at h
    cases hfm : findMin es with
    | none =>
      rw [hfm] at h
      simp only [Option.some.injEq] at h
      have hes : es = [] := findMin_none_iff.mp hfm
      subst hes
      rcases List.mem_singleton.mp hx with rfl
      exact h ▸ keyLt_irrefl x
    | some m2 =>
      rw [hfm] at h
      dsimp only at h
      by_cases hlt : m2.keyLt e
      · rw [if_pos hlt] at h
        simp only [Option.some.injEq] at h
        subst h
        rcases List.mem_cons.mp hx with rfl | hx2
        · exact fun hc => keyLt_asymm hc hlt
        · exact ih hfm x hx2
      · rw [if_neg hlt] at h
        simp only [Option.some.injEq] at h
        subst h
        rcases List.mem_cons.mp hx with rfl | hx2
        · exact keyLt_irrefl x
        · intro hc
          have h1 := ih hfm x hx2
          unfold Entry.keyLt at h1 hlt hc
          omega

theorem removeKey_sublist {α : Type} (t c : Nat) (l : List (Entry α)) :
    (removeKey t c l).Sublist l := by
  induction l with
  | nil => simp [removeKey]
  | cons e es ih =>
    simp only [removeKey]
    by_cases h : e.tick = t ∧ e.counter = c
    · rw [if_pos h]
      exact (List.Sublist.refl es).cons e
    · rw [if_neg h]
      exact List.Sublist.cons₂ e ih

theorem findMin_perm {α : Type} {l : List (Entry α)} {m : Entry α}
    (hwf : l.Pairwise (fun a b => a.counter ≠ b.counter))
    (h : findMin l = some m) :
    l.Perm (m :: removeKey m.tick m.counter l) := by
  induction l generalizing m with
  | nil => simp [findMin] at h
  | cons e es ih =>
    by_cases hkey : e.tick = m.tick ∧ e.counter = m.counter
    · have he : e = m := by
        rcases List.mem_cons.mp (findMin_mem h) with h1 | h1
        · exact h1.symm
        · exact absurd hkey.2 ((List.pairwise_cons.mp hwf).1 m h1)
      simp only [removeKey, if_pos hkey]
      exact he ▸ List.Perm.refl _
    · have hme : m ≠ e := fun hc => hkey (by simp [hc])
      have hfme : findMin es = some m := by
        simp only [findMin] at h
        cases hfm : findMin es with
        | none =>
          rw [hfm] at h
          simp only [Option.some.injEq] at h
          exact absurd h.symm hme
        | some m2 =>
          rw [hfm] at h
          dsimp only at h
          by_cases hlt : m2.keyLt e
          · rw [if_pos hlt] at h
            simp only [Option.some.injEq] at h
            exact congrArg some h
          · rw [if_neg hlt] at h
            simp only [Option.some.injEq] at h
            exact absurd h.symm hme
      have ihp := ih (List.pairwise_cons.mp hwf).2 hfme
      simp only [removeKey, if_neg hkey]
      exact (List.Perm.cons e ihp).trans (List.Perm.swap m e _)

theorem popEntriesAux_spec {α : Type} :
    ∀ (n : Nat) (l : List (Entry α)), l.length ≤ n →
      l.Pairwise (fun a b => a.counter ≠ b.counter) →
      (popEntriesAux n l).Perm l ∧ (popEntriesAux n l).Pairwise Entry.keyLt := by
  intro n
  induction n with
  | zero =>
    intro l hl _
    have : l = [] := List.length_eq_zero.mp (Nat.le_zero.mp hl)
    subst this
    simp [popEntriesAux]
  | succ n ih =>
    intro l hl hwf
    simp only [popEntriesAux]
    cases hfm : findMin l with
    | none =>
      have : l = [] := findMin_none_iff.mp hfm
      subst this
      simp
    | some m =>
      have hperm := findMin_perm hwf hfm
      have hlen : (removeKey m.tick m.counter l).length + 1 = l.length := by
        have := hperm.length_eq
        simpa using this.symm
      have hwf2 : (m :: removeKey m.tick m.counter l).Pairwise
          (fun a b => a.counter ≠ b.counter) :=
        ((hperm.pairwise_iff (fun hab hc => hab hc.symm)).mp hwf)
      have ihr := ih (removeKey m.tick m.counter l) (by omega)
        (List.pairwise_cons.mp hwf2).2
      constructor
      · exact (List.Perm.cons m ihr.1).trans hperm.symm
      · refine List.pairwise_cons.mpr ⟨?_, ihr.2⟩
        intro x hx
        have hxr : x ∈ removeKey m.tick m.counter l := ihr.1.mem_iff.mp hx
        have hxl : x ∈ l := (removeKey_sublist m.tick m.counter l).subset hxr
        have hnotlt : ¬ x.keyLt m := findMin_not_lt hfm x hxl
        have hne : m.counter ≠ x.counter := (List.pairwise_cons.mp hwf2).1 x hxr
        rcases keyLt_total m x with h1 | ⟨_, h2⟩ | h1
        · exact h1
        · exact absurd h2 hne
        · exact absurd h1 hnotlt

theorem popEntries_spec {α : Type} (l : List (Entry α))
    (hwf : l.Pairwise (fun a b => a.counter ≠ b.counter)) :
    (popEntries l).Perm l ∧ (popEntries l).Pairwise Entry.keyLt :=
  popEntriesAux_spec l.length l (Nat.le_refl _) hwf

theorem popEntries_eq_of_perm {α : Type} {l1 l2 : List (Entry α)}
    (hp : l1.Perm l2)
    (hwf : l2.Pairwise (fun a b => a.counter ≠ b.counter)) :
    popEntries l1 = popEntries l2 := by
  have hwf1 : l1.Pairwise (fun a b => a.counter ≠ b.counter) :=
    (hp.pairwise_iff (fun hab hc => hab hc.symm)).mpr hwf
  have s1 := popEntries_spec l1 hwf1
  have s2 := popEntries_spec l2 hwf
  have hperm : (popEntries l1).Perm (popEntries l2) :=
    (s1.1.trans hp).trans s2.1.symm
  exact List.eq_of_perm_of_sorted hperm s1.2 s2.2

/-- C1: entries pushed with equal due_tick are popped in push order (the
strictly increasing insertion counter gives the FIFO tie-break), the pop
order is independent of the internal arrangement of the heap and hence of
any hashing of actor identity, and push assigns the next counter and
preserves the tracker invariant (so an earlier push has a strictly smaller
counter). -/
theorem turnTracker_fifo_deterministic {α : Type} (t : TurnTracker α)
    (hwf : TrackerWF t) :
    (∀ e1 e2 : Entry α, e1 ∈ t.actor_heap → e2 ∈ t.actor_heap →
        e1.tick = e2.tick → e1.counter < e2.counter →
        ∃ i j : Fin (popEntries t.actor_heap).length, (i : Nat) < (j : Nat) ∧
          (popEntries t.actor_heap).get i = e1 ∧
          (popEntries t.actor_heap).get j = e2)
    ∧ (∀ l2 : List (Entry α), l2.Perm t.actor_heap →
        popEntries l2 = popEntries t.actor_heap)
    ∧ (∀ (a : α) (d : Nat),
        (⟨t.current_tick + d, t.entry_counter, a⟩ : Entry α) ∈ (t.push a d).actor_heap
          ∧ (t.push a d).entry_counter = t.entry_counter + 1
          ∧ TrackerWF (t.push a d)) := by
  have spec := popEntries_spec t.actor_heap hwf.1
  refine ⟨?_, ?_, ?_⟩
  · intro e1 e2 h1 h2 htick hcnt
    have hlt : e1.keyLt e2 := Or.inr ⟨htick, hcnt⟩
    obtain ⟨i, hi⟩ := List.mem_iff_get.mp (spec.1.mem_iff.mpr h1)
    obtain ⟨j, hj⟩ := List.mem_iff_get.mp (spec.1.mem_iff.mpr h2)
    have hpg := List.pairwise_iff_get.mp spec.2
    rcases Nat.lt_trichotomy i.val j.val with h | h | h
    · exact ⟨i, j, h, hi, hj⟩
    · exfalso
      have : e1 = e2 := by rw [← hi, ← hj]; congr 1; exact Fin.ext h
      subst this
      exact keyLt_irrefl e1 hlt
    · exfalso
      have := hpg j i (by exact h)
      rw [hi, hj] at this
      exact keyLt_asymm hlt this
  · intro l2 hp
    exact popEntries_eq_of_perm hp hwf.1
  · intro a d
    refine ⟨List.mem_cons_self _ _, rfl, ?_, ?_⟩
    · refine List.pairwise_cons.mpr ⟨?_, hwf.1⟩
      intro e he
      have := hwf.2 e he
      show t.entry_counter ≠ e.counter
      omega
    · intro e he
      rcases List.mem_cons.mp he with rfl | he2
      · simp [TurnTracker.push]
      · have := hwf.2 e he2
        simp only [TurnTracker.push]
        omega

/-- Witness for C1: pushing A, B, C at tick 5 onto a fresh tracker pops A
before B. -/
theorem turnTracker_fifo_deterministic_witness :
    ∃ i j : Fin (popEntries tC1.actor_heap).length, (i : Nat) < (j : Nat) ∧
      (popEntries tC1.actor_heap).get i = ⟨5, 0, "A"⟩ ∧
      (popEntries tC1.actor_heap).get j = ⟨5, 1, "B"⟩ :=
  (turnTracker_fifo_deterministic tC1 ⟨by decide, by decide⟩).1 ⟨5, 0, "A"⟩ ⟨5, 1, "B"⟩
    (by decide) (by decide) rfl (by decide)

/-! ## Movement (claim C2) -/

/-- C2: a Move fails with Impossible exactly when the destination is out of
bounds, not walkable, or occupied by a movement-blocking entity; on failure
the whole game state is returned unchanged; on success the actor moves to
the destination and the delay is its move_delay. -/
theorem movement_impossible_iff (gm : GameMap) (i : Nat) (actor : Actor)
    (hi : gm.actors.get? i = some actor) (dx dy : Int) :
    ((∃ msg, (movementPerform gm i dx dy).2 = Except.error msg) ↔
      (gm.in_bounds (actor.x + dx) (actor.y + dy) = false
        ∨ gm.walkable (actor.x + dx) (actor.y + dy) = false
        ∨ (gm.blockingEntityAt (actor.x + dx) (actor.y + dy)).isSome = true))
    ∧ (∀ msg, (movementPerform gm i dx dy).2 = Except.error msg →
        (movementPerform gm i dx dy).1 = gm)
    ∧ (∀ d, (movementPerform gm i dx dy).2 = Except.ok d →
        d = actor.move_delay
          ∧ (movementPerform gm i dx dy).1 =
            { gm with actors := gm.actors.set i { actor with x := actor.x + dx, y := actor.y + dy } }) := by
  have key : movementPerform gm i dx dy =
      (if ¬ gm.in_bounds (actor.x + dx) (actor.y + dy) then
        (gm, Except.error "Thats the edge of the world")
      else if ¬ gm.walkable (actor.x + dx) (actor.y + dy) then
        (gm, Except.error "Theres a wall there")
      else if (gm.blockingEntityAt (actor.x + dx) (actor.y + dy)).isSome then
        (gm, Except.error "Something is in the way")
      else
        ({ gm with actors := gm.actors.set i (actor.move dx dy) },
          Except.ok actor.move_delay)) := by
    simp only [movementPerform, hi]
  by_cases h1 : gm.in_bounds (actor.x + dx) (actor.y + dy) = true
  · by_cases h2 : gm.walkable (actor.x + dx) (actor.y + dy) = true
    · by_cases h3 : (gm.blockingEntityAt (actor.x + dx) (actor.y + dy)).isSome = true
      · rw [key, if_neg (not_not_intro h1), if_neg (not_not_intro h2), if_pos h3]
        exact ⟨⟨fun _ => Or.inr (Or.inr h3), fun _ => ⟨_, rfl⟩⟩, fun _ _ => rfl,
          fun d hd => by simp at hd⟩
      · rw [key, if_neg (not_not_intro h1), if_neg (not_not_intro h2), if_neg h3]
        refine ⟨⟨?_, ?_⟩, ?_, ?_⟩
        · rintro ⟨msg, hmsg⟩
          simp at hmsg
        · rintro (hc | hc | hc)
          · exact absurd hc (by simp [h1])
          · exact absurd hc (by simp [h2])
          · exact absurd hc h3
        · intro msg hmsg
          simp at hmsg
        · intro d hd
          simp only [Except.ok.injEq] at hd
          exact ⟨hd.symm, rfl⟩
    · rw [key, if_neg (not_not_intro h1), if_pos h2]
      exact ⟨⟨fun _ => Or.inr (Or.inl (by simpa using h2)), fun _ => ⟨_, rfl⟩⟩,
        fun _ _ => rfl, fun d hd => by simp at hd⟩
  · rw [key, if_pos h1]
    exact ⟨⟨fun _ => Or.inl (by simpa using h1), fun _ => ⟨_, rfl⟩⟩,
      fun _ _ => rfl, fun d hd => by simp at hd⟩

/-- Witness for C2: with the actor at (5, 5) and a wall at (6, 5),
Move(+1, 0) fails with the wall message and leaves the game state
unchanged. -/
theorem movement_impossible_iff_witness :
    (movementPerform gmC2 0 1 0).2 = Except.error "Theres a wall there"
      ∧ (movementPerform gmC2 0 1 0).1 = gmC2 :=
  ⟨rfl,
    (movement_impossible_iff gmC2 0
      (mkActor 5 5 "Player" (mkFighter 30 0 1) (invOf 26 [] none)) rfl 1 0).2.1
      "Theres a wall there" rfl⟩

/-! ## Death (claim C3) -/

/-- Writing a non-positive hp to a dead actor whose stored hp is already 0
changes nothing and emits no message (the death guard sees no AI). -/
theorem set_hp_zero_of_dead (b : Actor) (w : Int) (hai : b.ai = none)
    (hhp : b.fighter.hp = 0) (hw : w ≤ 0) : b.set_hp w = (b, []) := by
  have hnew : (min w (b.fighter.max_hp : Int)).toNat = 0 :=
    Int.toNat_eq_zero.mpr (le_trans (min_le_left _ _) hw)
  simp only [Actor.set_hp, hnew]
  rw [if_neg (by simp [hai])]
  obtain ⟨x, y, ch, co, nm, bm, ro, ai, f, inv, ip⟩ := b
  obtain ⟨mh, hp, bd, ud⟩ := f
  simp only at hhp
  subst hhp
  rfl

/-- C3: writing a non-positive hp to a living actor triggers death exactly
once: the AI is cleared (is_alive becomes false), the entity stops blocking
movement, is renamed to the remains-of marker with corpse glyph, color and
render order, and any further non-positive hp write is a no-op that does not
re-trigger death. -/
theorem death_triggers_once (a : Actor) (v : Int) (halive : a.ai.isSome = true)
    (hv : v ≤ 0) :
    ((a.set_hp v).1.ai = none)
    ∧ ((a.set_hp v).1.is_alive = false)
    ∧ ((a.set_hp v).1.blocks_movement = false)
    ∧ ((a.set_hp v).1.name = "remains of " ++ a.name)
    ∧ ((a.set_hp v).1.char = "%")
    ∧ ((a.set_hp v).1.color = (191, 0, 0))
    ∧ ((a.set_hp v).1.render_order = RenderOrder.corpse)
    ∧ ((a.set_hp v).1.fighter.hp = 0)
    ∧ (∀ w : Int, w ≤ 0 →
        ((a.set_hp v).1.set_hp w).1 = (a.set_hp v).1
          ∧ ((a.set_hp v).1.set_hp w).2 = []) := by
  have hnew : (min v (a.fighter.max_hp : Int)).toNat = 0 :=
    Int.toNat_eq_zero.mpr (le_trans (min_le_left _ _) hv)
  have hres : (a.set_hp v).1 =
      ({ a with fighter := { a.fighter with hp := 0 } }.die).1 := by
    simp only [Actor.set_hp, hnew]
    rw [if_pos ⟨by simp, halive⟩]
  rw [hres]
  refine ⟨rfl, rfl, rfl, rfl, rfl, rfl, rfl, rfl, ?_⟩
  intro w hw
  have := set_hp_zero_of_dead
    (({ a with fighter := { a.fighter with hp := 0 } }.die).1) w rfl rfl hw
  exact ⟨congrArg Prod.fst this, congrArg Prod.snd this⟩

/-- Witness for C3: killing a living orc renames it to remains, clears life,
and a second hp write at 0 changes nothing. -/
theorem death_triggers_once_witness :
    (((mkActor 1 1 "Orc" (mkFighter 10 0 3) (invOf 0 [] none)).set_hp 0).1.name
        = "remains of Orc")
    ∧ (((mkActor 1 1 "Orc" (mkFighter 10 0 3) (invOf 0 [] none)).set_hp 0).1.is_alive
        = false)
    ∧ ((((mkActor 1 1 "Orc" (mkFighter 10 0 3) (invOf 0 [] none)).set_hp 0).1.set_hp 0).1
        = ((mkActor 1 1 "Orc" (mkFighter 10 0 3) (invOf 0 [] none)).set_hp 0).1) := by
  have h := death_triggers_once
    (mkActor 1 1 "Orc" (mkFighter 10 0 3) (invOf 0 [] none)) 0 rfl (by decide)
  exact ⟨h.2.2.2.1, h.2.1, (h.2.2.2.2.2.2.2.2 0 (by decide)).1⟩

/-! ## Melee (claim C4) -/

theorem findActorAt_get? {l : List Actor} {x y : Int} {j : Nat} {t : Actor}
    (h : findActorAt l x y = some (j, t)) : l.get? j = some t := by
  induction l generalizing j with
  | nil => simp [findActorAt] at h
  | cons a rest ih =>
    simp only [findActorAt] at h
    by_cases hc : (a.is_alive && a.x == x && a.y == y) = true
    · rw [if_pos hc] at h
      simp only [Option.some.injEq, Prod.mk.injEq] at h
      rw [← h.1, ← h.2]
      rfl
    · rw [if_neg hc] at h
      cases hr : findActorAt rest x y with
      | none => rw [hr] at h; simp at h
      | some q =>
        rw [hr] at h
        simp at h
        obtain ⟨hj, ht⟩ := h
        subst hj
        subst ht
        show rest.get? q.1 = some q.2
        exact ih (by rw [hr])

theorem get?_set_self {α : Type} :
    ∀ (l : List α) (j : Nat) (t x : α), l.get? j = some t →
      (l.set j x).get? j = some x := by
  intro l
  induction l with
  | nil => intro j t x h; simp at h
  | cons a rest ih =>
    intro j t x h
    cases j with
    | zero => rfl
    | succ j2 =>
      simp only [List.set, List.get?] at h ⊢
      exact ih j2 t x h

/-- The hp setter writes the clamped value and never changes max_hp (die
touches no fighter field). -/
theorem set_hp_fighter (a : Actor) (v : Int) :
    (a.set_hp v).1.fighter.hp = (min v (a.fighter.max_hp : Int)).toNat
      ∧ (a.set_hp v).1.fighter.max_hp = a.fighter.max_hp := by
  simp only [Actor.set_hp]
  by_cases h : (min v (a.fighter.max_hp : Int)).toNat = 0 ∧ a.ai.isSome
  · rw [if_pos h]
    exact ⟨rfl, rfl⟩
  · rw [if_neg h]
    exact ⟨rfl, rfl⟩

/-- C4: a MeleeAttack fails exactly when no living actor occupies the
destination (and then changes nothing); with a target it always succeeds
with delay melee_delay, the target's hp becomes
hp − max(0, r1 − r2) clamped at 0 and never exceeds max_hp, a positive roll
is logged with the damage dealt and a non-positive roll with the distinct
no-damage message. -/
theorem melee_attack_spec (gm : GameMap) (i : Nat) (actor : Actor)
    (hi : gm.actors.get? i = some actor) (dx dy : Int) (r1 r2 : Nat)
    (hr1 : 1 ≤ r1) (hr1b : r1 ≤ actor.melee_damage) :
    (((meleePerform gm i dx dy r1 r2).2.2 = Except.error "Nothing to attack") ↔
        findActorAt gm.actors (actor.x + dx) (actor.y + dy) = none)
    ∧ (findActorAt gm.actors (actor.x + dx) (actor.y + dy) = none →
        (meleePerform gm i dx dy r1 r2).1 = gm
          ∧ (meleePerform gm i dx dy r1 r2).2.1 = [])
    ∧ (∀ j target,
        findActorAt gm.actors (actor.x + dx) (actor.y + dy) = some (j, target) →
        r2 ≤ target.defense →
        target.fighter.hp ≤ target.fighter.max_hp →
          (meleePerform gm i dx dy r1 r2).2.2 = Except.ok actor.melee_delay
          ∧ (∃ target2,
              (meleePerform gm i dx dy r1 r2).1.actors.get? j = some target2
                ∧ target2.fighter.hp
                    = ((target.fighter.hp : Int) - max 0 ((r1 : Int) - (r2 : Int))).toNat
                ∧ target2.fighter.hp ≤ target.fighter.max_hp)
          ∧ ((r1 : Int) - (r2 : Int) > 0 →
              ((meleePerform gm i dx dy r1 r2).2.1).head? =
                some (actor.name.capitalize ++ " attacks " ++ target.name
                  ++ " for " ++ toString ((r1 : Int) - (r2 : Int))))
          ∧ ((r1 : Int) - (r2 : Int) ≤ 0 →
              (meleePerform gm i dx dy r1 r2).2.1 =
                [actor.name.capitalize ++ " attacks " ++ target.name
                  ++ " but does no damage"])) := by
  simp only [meleePerform, hi]
  cases hfind : findActorAt gm.actors (actor.x + dx) (actor.y + dy) with
  | none =>
    refine ⟨⟨fun _ => rfl, fun _ => rfl⟩, fun _ => ⟨rfl, rfl⟩, ?_⟩
    intro j target h
    simp at h
  | some p =>
    obtain ⟨j, target⟩ := p
    dsimp only
    by_cases hd : (r1 : Int) - (r2 : Int) > 0
    · rw [if_pos hd]
      refine ⟨⟨fun h => by simp at h, fun h => by simp at h⟩,
        fun h => by simp at h, ?_⟩
      intro j2 target2 heq hr2 hle
      simp only [Option.some.injEq, Prod.mk.injEq] at heq
      obtain ⟨rfl, rfl⟩ := heq
      have hget := findActorAt_get? hfind
      have hfhp := set_hp_fighter target ((target.fighter.hp : Int) - ((r1 : Int) - (r2 : Int)))
      refine ⟨rfl, ?_, fun _ => rfl, fun hc => absurd hd (by omega)⟩
      refine ⟨(target.set_hp ((target.fighter.hp : Int) - ((r1 : Int) - (r2 : Int)))).1,
        get?_set_self gm.actors j target _ hget, ?_, ?_⟩
      · rw [hfhp.1]
        omega
      · rw [hfhp.1]
        omega
    · rw [if_neg hd]
      refine ⟨⟨fun h => by simp at h, fun h => by simp at h⟩,
        fun h => by simp at h, ?_⟩
      intro j2 target2 heq hr2 hle
      simp only [Option.some.injEq, Prod.mk.injEq] at heq
      obtain ⟨rfl, rfl⟩ := heq
      have hget := findActorAt_get? hfind
      refine ⟨rfl, ⟨target, hget, by omega, hle⟩,
        fun hc => absurd hc (by omega), fun _ => rfl⟩

/-- Witness for C4: the orc (melee damage 3) rolls 3 against the troll
(defense roll 1): the attack succeeds with delay 10 and the troll's hp drops
from 16 to 14. -/
theorem melee_attack_spec_witness :
    (meleePerform gmC4 0 1 0 3 1).2.2 = Except.ok 10
    ∧ (∃ target2, (meleePerform gmC4 0 1 0 3 1).1.actors.get? 1 = some target2
        ∧ target2.fighter.hp = 14) := by
  have h := (melee_attack_spec gmC4 0
      (mkActor 1 1 "Orc" (mkFighter 10 0 3) (invOf 0 [] none)) rfl 1 0 3 1
      (by decide) (by decide)).2.2 1
      (mkActor 2 1 "Troll" (mkFighter 16 1 4) (invOf 0 [] none)) rfl
      (by decide) (by decide)
  refine ⟨h.1, ?_⟩
  obtain ⟨t2, h1, h2, _⟩ := h.2.1
  exact ⟨t2, h1, by rw [h2]; decide⟩

/-! ## Derived combat stats (claim C5) -/

/-- C5 counterexample: an actor that wields a non-weapon item (the source
Inventory.wield sets wielded_key unconditionally, and the wield menu accepts
any letter key) gets melee_damage 1 from the Item base property, not its
unarmed damage 3, refuting the claim that a non-weapon-wielding actor falls
back to base unarmed damage. -/
theorem melee_damage_nonweapon_cex :
    (∃ it, cexActorC5.inventory.wielded = some it ∧ it.isWeapon = false)
    ∧ cexActorC5.melee_damage = 1
    ∧ cexActorC5.fighter.unarmed_damage = 3
    ∧ cexActorC5.melee_damage ≠ cexActorC5.fighter.unarmed_damage := by
  exact ⟨⟨potion, rfl, rfl⟩, rfl, rfl, by decide⟩

/-- C5 amended: melee_damage equals the wielded item's melee_damage property
(the configured damage for weapons, 1 for any other item) when an item is
wielded and the base unarmed damage when nothing is wielded; defense is the
base defense plus the summed defense of worn armor, hence exactly the base
defense when every armor slot is empty. -/
theorem derived_stats_amended (a : Actor) :
    (a.inventory.wielded = none → a.melee_damage = a.fighter.unarmed_damage)
    ∧ (∀ it, a.inventory.wielded = some it → a.melee_damage = it.melee_damage)
    ∧ a.defense = a.fighter.base_defense + a.inventory.defense
    ∧ ((∀ s, a.inventory.armor_keys s = none) →
        a.defense = a.fighter.base_defense) := by
  refine ⟨?_, ?_, rfl, ?_⟩
  · intro h
    simp [Actor.melee_damage, h]
  · intro it h
    simp [Actor.melee_damage, h]
  · intro h
    have hz : a.inventory.defense = 0 := by
      simp [Inventory.defense, Inventory.wornAt, h, ArmorSlot.all]
    simp [Actor.defense, hz]

/-- Witness for the amended C5: a dagger wielder deals the dagger damage, an
unarmed actor its unarmed damage, and an actor with empty armor slots has
exactly its base defense. -/
theorem derived_stats_amended_witness :
    wActorC5.melee_damage = dagger.melee_damage
    ∧ (mkActor 1 1 "Orc" (mkFighter 10 0 3) (invOf 0 [] none)).melee_damage = 3
    ∧ wActorC5.defense = wActorC5.fighter.base_defense := by
  refine ⟨(derived_stats_amended wActorC5).2.1 dagger rfl, ?_, ?_⟩
  · exact (derived_stats_amended
      (mkActor 1 1 "Orc" (mkFighter 10 0 3) (invOf 0 [] none))).1 rfl
  · exact (derived_stats_amended wActorC5).2.2.2 (fun s => rfl)

/-! ## Pickup and stacking (claim C6) -/

theorem stackInto_some (items : List (String × List Item)) (item : Item)
    (h : ∃ ks, ks ∈ items ∧ ks.2.head?.map Item.name = some item.name) :
    ∃ l2, stackInto items item = some l2 := by
  induction items with
  | nil =>
    obtain ⟨ks, hm, _⟩ := h
    simp at hm
  | cons p rest ih =>
    obtain ⟨k, stack⟩ := p
    by_cases hc : (stack.head?.map Item.name == some item.name) = true
    · refine ⟨(k, stack ++ [item]) :: rest, ?_⟩
      simp only [stackInto]
      rw [if_pos hc]
    · obtain ⟨ks, hm, hname⟩ := h
      rcases List.mem_cons.mp hm with rfl | hm2
      · exact absurd (beq_iff_eq.mpr hname) hc
      · obtain ⟨l2, hl2⟩ := ih ⟨ks, hm2, hname⟩
        refine ⟨(k, stack) :: l2, ?_⟩
        simp only [stackInto, hl2]
        rw [if_neg hc]
        rfl

theorem freeKey_of_length_lt (items : List (String × List Item))
    (h : items.length < 26) : ∃ k, firstFreeKey items = some k := by
  cases h2 : firstFreeKey items with
  | some k => exact ⟨k, rfl⟩
  | none =>
    exfalso
    simp only [firstFreeKey, Option.map_eq_none'] at h2
    have hall := List.find?_eq_none.mp h2
    have hsub : (ALL_KEYS.toList.map Char.toString) ⊆ items.map Prod.fst := by
      intro s hs
      obtain ⟨c, hc1, rfl⟩ := List.mem_map.mp hs
      have := hall c hc1
      simp only [List.all_eq_true, decide_eq_true_eq] at this
      push_neg at this
      obtain ⟨p, hp, hpe⟩ := this
      exact hpe ▸ List.mem_map_of_mem Prod.fst hp
    have hnodup : (ALL_KEYS.toList.map Char.toString).Nodup := by decide
    have hle := (List.subperm_of_subset hnodup hsub).length_le
    simp only [List.length_map, List.length_map] at hle
    have h26 : ALL_KEYS.toList.length = 26 := by decide
    omega

theorem add_ok_of_length_lt (inv : Inventory) (item : Item)
    (h : inv.items.length < 26) : ∃ inv2, inv.add item = Except.ok inv2 := by
  unfold Inventory.add
  cases hs : stackInto inv.items item with
  | some l2 => exact ⟨_, rfl⟩
  | none =>
    obtain ⟨k, hk⟩ := freeKey_of_length_lt inv.items h
    rw [hk]
    exact ⟨_, rfl⟩

/-- C6 counterexample: with capacity 1 and one potion stack occupying the
single key, picking up another potion of the same name fails with the
inventory-full message, even though Inventory.add alone would stack it:
PickupAction checks the distinct-key count against capacity before asking
the inventory to stack. -/
theorem pickup_stack_full_cex :
    findItemAt gmC6.items 3 3 = some (0, potion)
    ∧ ((gmC6.actors.get? 0).map fun a =>
        a.inventory.items.any fun p => p.2.head?.map Item.name == some potion.name)
        = some true
    ∧ (pickupPerform gmC6 0).2.2 = Except.error "Your inventory is full."
    ∧ (∃ inv2, (invOf 1 [("a", [potion])] none).add potion = Except.ok inv2) := by
  exact ⟨rfl, rfl, rfl, ⟨_, rfl⟩⟩

/-- C6 amended: PickUp fails with "Your inventory is full." whenever an item
lies at the actor's tile and the number of distinct occupied keys is at
least the capacity — even when the item would stack onto an existing
same-named stack; when the key count is below the capacity (and the capacity
is at most 26) the pickup succeeds through Inventory.add, which stacks onto
the first same-named stack or takes the first free letter; and at the
Inventory.add level alone, adding an item whose name matches an existing
stack always succeeds regardless of how many keys are occupied. -/
theorem pickup_amended (gm : GameMap) (i : Nat) (actor : Actor)
    (hi : gm.actors.get? i = some actor) :
    (findItemAt gm.items actor.x actor.y = none →
        pickupPerform gm i = (gm, [], Except.error "There is nothing here to pick up."))
    ∧ (∀ j item, findItemAt gm.items actor.x actor.y = some (j, item) →
        actor.inventory.items.length ≥ actor.inventory.capacity →
        pickupPerform gm i = (gm, [], Except.error "Your inventory is full."))
    ∧ (∀ j item, findItemAt gm.items actor.x actor.y = some (j, item) →
        actor.inventory.items.length < actor.inventory.capacity →
        actor.inventory.capacity ≤ 26 →
        ∃ inv2, actor.inventory.add item = Except.ok inv2
          ∧ pickupPerform gm i =
            ({ gm with
                items := gm.items.eraseIdx j
                actors := gm.actors.set i { actor with inventory := inv2 } },
              ["You picked up the " ++ item.name ++ "!"], Except.ok 10))
    ∧ (∀ (inv : Inventory) (item : Item),
        (∃ ks, ks ∈ inv.items ∧ ks.2.head?.map Item.name = some item.name) →
        ∃ inv2, inv.add item = Except.ok inv2) := by
  refine ⟨?_, ?_, ?_, ?_⟩
  · intro h
    simp only [pickupPerform, hi, h]
  · intro j item hfind hge
    simp only [pickupPerform, hi, hfind]
    rw [if_pos hge]
  · intro j item hfind hlt hcap
    obtain ⟨inv2, hadd⟩ := add_ok_of_length_lt actor.inventory item (by omega)
    refine ⟨inv2, hadd, ?_⟩
    simp only [pickupPerform, hi, hfind]
    rw [if_neg (not_le.mpr hlt), hadd]
  · intro inv item hex
    obtain ⟨l2, hl2⟩ := stackInto_some inv.items item hex
    unfold Inventory.add
    rw [hl2]
    exact ⟨_, rfl⟩

/-- Witness for the amended C6: with capacity 2 and one potion stack, a
second potion at the tile is picked up by stacking, with delay 10. -/
theorem pickup_amended_witness :
    ∃ inv2, (invOf 2 [("a", [potion])] none).add potion = Except.ok inv2
      ∧ pickupPerform gmC6b 0 =
        ({ gmC6b with
            items := gmC6b.items.eraseIdx 0
            actors := gmC6b.actors.set 0
              { mkActor 3 3 "Player" (mkFighter 30 0 1) (invOf 2 [("a", [potion])] none) with
                inventory := inv2 } },
          ["You picked up the " ++ potion.name ++ "!"], Except.ok 10) :=
  (pickup_amended gmC6b 0
      (mkActor 3 3 "Player" (mkFighter 30 0 1) (invOf 2 [("a", [potion])] none)) rfl).2.2.1
    0 potion rfl (by decide) (by decide)

/-! ## Dangling equipment references (claim C7) -/

/-- C7: the source Inventory.drop removes the whole stack but does not clear
wielded_key: dropping the wielded dagger leaves wielded_key referencing a
key that is no longer present in items, violating the invariant the claim
states (the next Inventory.wielded lookup raises KeyError in Python). -/
theorem drop_leaves_dangling_wielded_key :
    ∃ inv2 stack msg, invC7.drop "a" = some (inv2, stack, msg)
      ∧ inv2.wielded_key = some "a"
      ∧ inv2.lookup "a" = none
      ∧ inv2.items = [] := by
  exact ⟨_, _, _, rfl, rfl, rfl, rfl⟩

/-! ## Confused AI (claim C8) -/

theorem findActorAt_pos {l : List Actor} {x y : Int} {j : Nat} {t : Actor}
    (h : findActorAt l x y = some (j, t)) : t.x = x ∧ t.y = y := by
  induction l generalizing j with
  | nil => simp [findActorAt] at h
  | cons a rest ih =>
    simp only [findActorAt] at h
    by_cases hc : (a.is_alive && a.x == x && a.y == y) = true
    · rw [if_pos hc] at h
      simp only [Option.some.injEq, Prod.mk.injEq] at h
      simp only [Bool.and_eq_true, beq_iff_eq] at hc
      rw [← h.2]
      exact ⟨hc.1.2, hc.2⟩
    · rw [if_neg hc] at h
      cases hr : findActorAt rest x y with
      | none => rw [hr] at h; simp at h
      | some q =>
        rw [hr] at h
        simp at h
        obtain ⟨hj, ht⟩ := h
        subst ht
        exact ih (by rw [hr])

theorem get?_set_ne {α : Type} :
    ∀ (l : List α) (j i : Nat) (x : α), j ≠ i →
      (l.set j x).get? i = l.get? i := by
  intro l
  induction l with
  | nil => intro j i x _; rfl
  | cons a rest ih =>
    intro j i x hne
    cases j with
    | zero =>
      cases i with
      | zero => exact absurd rfl hne
      | succ i2 => rfl
    | succ j2 =>
      cases i with
      | zero => rfl
      | succ i2 =>
        show (rest.set j2 x).get? i2 = rest.get? i2
        exact ih j2 i2 x (fun hc => hne (by rw [hc]))

/-- A Bump never changes the AI field of the acting actor: melee only mutates
the target (which, the direction being non-zero, sits at a different index)
and movement only translates the acting actor's position. -/
theorem bump_preserves_actor_ai (gm : GameMap) (i : Nat) (a : Actor)
    (dx dy : Int) (r1 r2 : Nat) (hi : gm.actors.get? i = some a)
    (hdxy : ¬(dx = 0 ∧ dy = 0)) :
    ((bumpPerform gm i dx dy r1 r2).1.actors.get? i).map Actor.ai = some a.ai := by
  simp only [bumpPerform, hi]
  by_cases hb : (findActorAt gm.actors (a.x + dx) (a.y + dy)).isSome = true
  · rw [if_pos hb]
    obtain ⟨q, hfind⟩ := Option.isSome_iff_exists.mp hb
    obtain ⟨j, target⟩ := q
    have hget := findActorAt_get? hfind
    have hpos := findActorAt_pos hfind
    have hji : j ≠ i := by
      intro hc
      subst hc
      rw [hget] at hi
      simp only [Option.some.injEq] at hi
      subst hi
      exact hdxy ⟨by omega, by omega⟩
    simp only [meleePerform, hi, hfind]
    by_cases hd : (r1 : Int) - (r2 : Int) > 0
    · rw [if_pos hd]
      dsimp only
      rw [get?_set_ne gm.actors j i _ hji, hi]
      rfl
    · rw [if_neg hd]
      dsimp only
      rw [hi]
      rfl
  · rw [if_neg hb]
    simp only [movementPerform, hi]
    by_cases h1 : gm.in_bounds (a.x + dx) (a.y + dy) = true
    · by_cases h2 : gm.walkable (a.x + dx) (a.y + dy) = true
      · by_cases h3 : (gm.blockingEntityAt (a.x + dx) (a.y + dy)).isSome = true
        · rw [if_neg (not_not_intro h1), if_neg (not_not_intro h2), if_pos h3]
          dsimp only
          rw [hi]
          rfl
        · rw [if_neg (not_not_intro h1), if_neg (not_not_intro h2), if_neg h3]
          dsimp only
          rw [get?_set_self gm.actors i a (a.move dx dy) hi]
          rfl
      · rw [if_neg (not_not_intro h1), if_pos h2]
        dsimp only
        rw [hi]
        rfl
    · rw [if_pos h1]
      dsimp only
      rw [hi]
      rfl

/-- C8: a Confused activation with turns_remaining at least 1 decrements the
counter by 1 (a mutation that persists through the activation, whatever the
Bump then does) and forwards the result of a Bump in one of the 8 compass
directions; an activation with turns_remaining at 0 (or below) restores the
actor's AI to the saved previous behavior, moves nothing, and returns
delay 0. -/
theorem confused_behavior_spec (gm : GameMap) (i : Nat) (actor : Actor)
    (previous : Option AIState) (turns : Int)
    (hi : gm.actors.get? i = some actor)
    (hai : actor.ai = some (AIState.confused previous turns))
    (dirIdx : Fin 8) (r1 r2 : Nat) :
    (1 ≤ turns →
        ∃ dir, dir ∈ DIRECTIONS
          ∧ confusedPerform gm i previous turns dirIdx r1 r2 =
              bumpPerform
                { gm with actors := gm.actors.set i { actor with ai := some (AIState.confused previous (turns - 1)) } }
                i dir.1 dir.2 r1 r2)
    ∧ (1 ≤ turns →
        ((confusedPerform gm i previous turns dirIdx r1 r2).1.actors.get? i).map Actor.ai
          = some (some (AIState.confused previous (turns - 1))))
    ∧ (turns ≤ 0 →
        confusedPerform gm i previous turns dirIdx r1 r2 =
          ({ gm with actors := gm.actors.set i { actor with ai := previous } },
            ["The " ++ actor.name ++ " is no longer confused."],
            Except.ok 0)) := by
  have hdirs : ∀ d ∈ DIRECTIONS, ¬(d.1 = 0 ∧ d.2 = 0) := by decide
  refine ⟨?_, ?_, ?_⟩
  · intro ht
    simp only [confusedPerform, hi]
    rw [if_neg (by omega)]
    exact ⟨_, List.get_mem DIRECTIONS dirIdx.val _, rfl⟩
  · intro ht
    simp only [confusedPerform, hi]
    rw [if_neg (by omega)]
    exact bump_preserves_actor_ai _ i
      { actor with ai := some (AIState.confused previous (turns - 1)) } _ _ r1 r2
      (get?_set_self gm.actors i actor _ hi)
      (hdirs _ (List.get_mem DIRECTIONS dirIdx.val _))
  · intro ht
    simp only [confusedPerform, hi]
    rw [if_pos ht]

/-- Witness for C8: the confused orc at 2 turns ends its activation with
turns_remaining 1, and at 0 turns its activation restores the hostile AI,
emits no movement and returns delay 0. -/
theorem confused_behavior_spec_witness :
    ((confusedPerform gmC8 0 (some (AIState.hostile [])) 2 ⟨4, by omega⟩ 1 0).1.actors.get? 0).map Actor.ai
        = some (some (AIState.confused (some (AIState.hostile [])) 1))
    ∧ confusedPerform gmC8z 0 (some (AIState.hostile [])) 0 ⟨4, by omega⟩ 1 0 =
        ({ gmC8z with actors := gmC8z.actors.set 0 { actorC8z with ai := some (AIState.hostile []) } },
          ["The Orc is no longer confused."], Except.ok 0) := by
  refine ⟨?_, ?_⟩
  · exact (confused_behavior_spec gmC8 0 actorC8 (some (AIState.hostile [])) 2
      rfl rfl ⟨4, by omega⟩ 1 0).2.1 (by decide)
  · exact (confused_behavior_spec gmC8z 0 actorC8z (some (AIState.hostile [])) 0
      rfl rfl ⟨4, by omega⟩ 1 0).2.2 (by decide)

/-! ## Activation loop (claim C9) -/

/-- C9: with the player alive, one iteration of handle_enemy_turns discards a
popped dead actor without re-pushing it; a popped living non-player actor
whose AI fails with Impossible is re-pushed with the fallback delay 10 (due
at current_tick + 10); otherwise it is re-pushed at current_tick plus the
delay its AI returned. -/
theorem activation_loop_spec (gm : GameMap) (pIdx : Nat) (t : TurnTracker Nat)
    (aiResult : Nat → GameMap → GameMap × Except String Nat)
    (pl : Actor) (hp : gm.actors.get? pIdx = some pl) (hpl : pl.is_alive = true)
    (id : Nat) (t2 : TurnTracker Nat) (hpop : t.pop = some (id, t2))
    (actor : Actor) (hid : gm.actors.get? id = some actor) (hne : id ≠ pIdx) :
    (actor.is_alive = false →
        handleStep gm pIdx t aiResult = some (LoopStep.cont gm t2))
    ∧ (∀ gm2 e, actor.is_alive = true → aiResult id gm = (gm2, Except.error e) →
        handleStep gm pIdx t aiResult = some (LoopStep.cont gm2 (t2.push id 10))
          ∧ (t2.push id 10).actor_heap.head?
              = some ⟨t2.current_tick + 10, t2.entry_counter, id⟩)
    ∧ (∀ gm2 d, actor.is_alive = true → aiResult id gm = (gm2, Except.ok d) →
        handleStep gm pIdx t aiResult = some (LoopStep.cont gm2 (t2.push id d))
          ∧ (t2.push id d).actor_heap.head?
              = some ⟨t2.current_tick + d, t2.entry_counter, id⟩) := by
  have hcond : (gm.actors.get? pIdx).map Actor.is_alive = some true := by
    rw [hp]
    simp [hpl]
  refine ⟨?_, ?_, ?_⟩
  · intro hdead
    simp only [handleStep]
    rw [if_neg (not_not_intro hcond), hpop]
    dsimp only
    rw [hid]
    dsimp only
    rw [if_pos (by simp [hdead])]
  · intro gm2 e halive hres
    refine ⟨?_, rfl⟩
    simp only [handleStep]
    rw [if_neg (not_not_intro hcond), hpop]
    dsimp only
    rw [hid]
    dsimp only
    rw [if_neg (by simp [halive]), if_neg hne]
    obtain ⟨s, hs⟩ := Option.isSome_iff_exists.mp (show actor.ai.isSome = true from halive)
    rw [hs]
    dsimp only
    rw [hres]
  · intro gm2 d halive hres
    refine ⟨?_, rfl⟩
    simp only [handleStep]
    rw [if_neg (not_not_intro hcond), hpop]
    dsimp only
    rw [hid]
    dsimp only
    rw [if_neg (by simp [halive]), if_neg hne]
    obtain ⟨s, hs⟩ := Option.isSome_iff_exists.mp (show actor.ai.isSome = true from halive)
    rw [hs]
    dsimp only
    rw [hres]

/-- Witness for C9: the orc popped at tick 20 whose AI fails with Impossible
is re-pushed with delay 10, due at tick 30. -/
theorem activation_loop_spec_witness :
    handleStep gmC9 0 tC9 aiFailC9
        = some (LoopStep.cont gmC9
            (({ actor_heap := [], entry_counter := 4, current_tick := 20 } :
              TurnTracker Nat).push 1 10))
    ∧ (({ actor_heap := [], entry_counter := 4, current_tick := 20 } :
          TurnTracker Nat).push 1 10).actor_heap.head? = some ⟨30, 4, 1⟩ := by
  have h := (activation_loop_spec gmC9 0 tC9 aiFailC9
      { mkActor 0 0 "Player" (mkFighter 30 0 1) (invOf 26 [] none) with isPlayer := true }
      rfl rfl 1 { actor_heap := [], entry_counter := 4, current_tick := 20 } rfl
      (mkActor 5 5 "Orc" (mkFighter 10 0 3) (invOf 0 [] none)) rfl (by decide)).2.1
      gmC9 "Nothing to attack" rfl rfl
  exact ⟨h.1, h.2⟩

/-! ## Hostile cached path (claim C10) -/

theorem movementPerform_error_eq (gm : GameMap) (i : Nat) (dx dy : Int) (e : String)
    (h : (movementPerform gm i dx dy).2 = Except.error e) :
    (movementPerform gm i dx dy).1 = gm := by
  simp only [movementPerform] at h ⊢
  cases hg : gm.actors.get? i with
  | none => rfl
  | some a =>
    rw [hg] at h
    dsimp only at h ⊢
    by_cases h1 : ¬ gm.in_bounds (a.x + dx) (a.y + dy) = true
    · rw [if_pos h1]
    · rw [if_neg h1] at h ⊢
      by_cases h2 : ¬ gm.walkable (a.x + dx) (a.y + dy) = true
      · rw [if_pos h2]
      · rw [if_neg h2] at h ⊢
        by_cases h3 : (gm.blockingEntityAt (a.x + dx) (a.y + dy)).isSome = true
        · rw [if_pos h3]
        · rw [if_neg h3] at h
          simp at h

/-- C10: when the Hostile AI acts from a (possibly just recomputed) cached
path — the actor not being in melee range with its tile visible — the first
step is removed from the path before the Move toward it is resolved, the
returned cached path is the tail whatever the Move outcome, and when the
Move fails with Impossible the step is not restored although the whole game
state (and hence the actor position) is unchanged. -/
theorem hostile_path_pop_spec (gm : GameMap) (i pIdx : Nat)
    (path : List (Int × Int))
    (getPath : GameMap → Actor → Int × Int → List (Int × Int)) (r1 r2 : Nat)
    (actor target : Actor)
    (hi : gm.actors.get? i = some actor)
    (hpl : gm.actors.get? pIdx = some target)
    (hfar : ¬(gm.visible actor.x actor.y = true
      ∧ max (target.x - actor.x).natAbs (target.y - actor.y).natAbs ≤ 1))
    (s : Int × Int) (rest : List (Int × Int))
    (hstep : (if gm.visible actor.x actor.y then
        getPath gm actor (target.x, target.y) else path) = s :: rest) :
    (hostilePerform gm i path getPath pIdx r1 r2).2.2.2 = rest
    ∧ hostilePerform gm i path getPath pIdx r1 r2 =
        ((movementPerform gm i (s.1 - actor.x) (s.2 - actor.y)).1, [],
          (movementPerform gm i (s.1 - actor.x) (s.2 - actor.y)).2, rest)
    ∧ (∀ e, (movementPerform gm i (s.1 - actor.x) (s.2 - actor.y)).2 = Except.error e →
        (hostilePerform gm i path getPath pIdx r1 r2).1 = gm
          ∧ rest.length + 1 = (s :: rest).length) := by
  have hkey : hostilePerform gm i path getPath pIdx r1 r2 =
      ((movementPerform gm i (s.1 - actor.x) (s.2 - actor.y)).1, [],
        (movementPerform gm i (s.1 - actor.x) (s.2 - actor.y)).2, rest) := by
    simp only [hostilePerform, hi, hpl]
    rw [if_neg hfar, hstep]
  refine ⟨by rw [hkey], hkey, ?_⟩
  intro e he
  rw [hkey]
  exact ⟨movementPerform_error_eq gm i _ _ e he, rfl⟩

/-- Witness for C10: the orc at (0, 0) on a non-visible tile holds the cached
path [(1, 0), (2, 0)]; (1, 0) is a wall, so the Move fails, yet the cached
path has permanently lost its first step while the game state is
unchanged. -/
theorem hostile_path_pop_spec_witness :
    (hostilePerform gmC10 0 [(1, 0), (2, 0)] getPathC10 1 1 0).2.2.2 = [(2, 0)]
    ∧ (hostilePerform gmC10 0 [(1, 0), (2, 0)] getPathC10 1 1 0).1 = gmC10 := by
  have h := hostile_path_pop_spec gmC10 0 1 [(1, 0), (2, 0)] getPathC10 1 0
      (mkActor 0 0 "Orc" (mkFighter 10 0 3) (invOf 0 [] none))
      { mkActor 5 5 "Player" (mkFighter 30 0 1) (invOf 26 [] none) with isPlayer := true }
      rfl rfl (by decide) (1, 0) [(2, 0)] rfl
  exact ⟨h.1, (h.2.2 "Theres a wall there" rfl).1⟩

end RogueArtificer
